import Mathlib

/-!
Shallow embedding of the retry/flag/navigation core of the ai_web_config
browser extension (logic.js, plus the handler registry and URL-change
watcher of chrome/background.js), with theorems checking the
natural-language specification against the code.

Conventions of the embedding:
* An `action()` invocation is modelled by its outcome: it resolves truthy
  (`success`), resolves falsy (`failure`), or rejects/throws (`thrown`).
  The action is a function of the number of invocations performed so far,
  so that behaviour may differ between attempts.
* The guard (`validationFn`) is modelled as a function of the number of
  action invocations performed so far, so that a guard "becoming false
  after attempt 2" is expressible.  The JS code queries the guard with no
  argument; the embedding records at which point in the run each query
  happens.
* `await waitFor(delay)` is modelled by accumulating the requested
  milliseconds into the `sleepMs` field of the run result.
* `console.error` logging is not modelled (it has no effect on the
  results the claims talk about); a caught exception simply continues.
-/

namespace AIWebConfig

/-- Outcome of one invocation of a JS `action()`: resolve truthy, resolve
falsy, or throw/reject. -/
inductive Outcome where
  | success
  | failure
  | thrown
deriving DecidableEq, Repr

/-- Observable result of one run of the retry scheduler: the boolean it
returns, how many times it invoked the action, the total milliseconds
slept, and how many times it evaluated the guard. -/
structure RunResult where
  result : Bool
  invocations : Nat
  sleepMs : Nat
  guardEvals : Nat
deriving DecidableEq, Repr

/-- The `for (const delay of delaysMs)` loop body of `tryWithDelays`
(logic.js): sleep for the delay, invoke the action; a truthy resolution
returns true, a falsy resolution or a caught exception continues with the
next delay; an exhausted list returns false.  The `Nat` argument counts
action invocations already performed; the value is
(returned boolean, action invocations, milliseconds slept). -/
def tryDelaysLoop (action : Nat → Outcome) : Nat → List Nat → Bool × Nat × Nat
  | _, [] => (false, 0, 0)
  | n, d :: ds =>
    match action n with
    | Outcome.success => (true, 1, d)
    | Outcome.failure =>
      let r := tryDelaysLoop action (n + 1) ds
      (r.1, r.2.1 + 1, r.2.2 + d)
    | Outcome.thrown =>
      let r := tryDelaysLoop action (n + 1) ds
      (r.1, r.2.1 + 1, r.2.2 + d)

/-- Embedding of `tryWithDelays(action, delaysMs, validationFn = null)`
(logic.js lines 47-63).  The source checks
`if (validationFn && !validationFn()) return false;` once, before the
loop; it never consults the guard again. -/
def tryWithDelays (action : Nat → Outcome) (delaysMs : List Nat)
    (validationFn : Option (Nat → Bool)) : RunResult :=
  match validationFn with
  | some g =>
    if g 0 then
      let r := tryDelaysLoop action 0 delaysMs
      { result := r.1, invocations := r.2.1, sleepMs := r.2.2, guardEvals := 1 }
    else
      { result := false, invocations := 0, sleepMs := 0, guardEvals := 1 }
  | none =>
    let r := tryDelaysLoop action 0 delaysMs
    { result := r.1, invocations := r.2.1, sleepMs := r.2.2, guardEvals := 0 }

/-- An action that always resolves falsy. -/
def actionFail : Nat → Outcome := fun _ => Outcome.failure

/-- A guard that is true before attempts 1 and 2 and false afterwards. -/
def guardC1 : Nat → Bool := fun n => decide (n < 2)

/-- The default delay sequence of logic.js. -/
def delaysC1 : List Nat := [1000, 2000, 3000, 5000]

/-- Helper: when the action never resolves truthy, the loop consumes every
delay, invokes the action once per delay, sleeps all the delays, and
returns false. -/
theorem tryDelaysLoop_all_fail (action : Nat → Outcome)
    (hfail : ∀ m, action m ≠ Outcome.success) :
    ∀ (delays : List Nat) (n : Nat),
      tryDelaysLoop action n delays = (false, delays.length, delays.sum) := by
  intro delays
  induction delays with
  | nil => intro n; rfl
  | cons d ds ih =>
    intro n
    cases hact : action n with
    | success => exact absurd hact (hfail n)
    | failure =>
      simp [tryDelaysLoop, hact, ih (n + 1), Nat.add_comm]
    | thrown =>
      simp [tryDelaysLoop, hact, ih (n + 1), Nat.add_comm]

/-- Helper: when the action first resolves truthy on its k-th invocation
(counting from 1, relative to a start of n prior invocations) and
k does not exceed the number of delays, the loop stops right there with
true, k invocations, and the sum of the first k delays slept. -/
theorem tryDelaysLoop_succeeds (action : Nat → Outcome) :
    ∀ (delays : List Nat) (n k : Nat), 1 ≤ k → k ≤ delays.length →
      (∀ m, m < k - 1 → action (n + m) ≠ Outcome.success) →
      action (n + (k - 1)) = Outcome.success →
      tryDelaysLoop action n delays = (true, k, (delays.take k).sum) := by
  intro delays
  induction delays with
  | nil =>
    intro n k hk1 hk _ _
    simp at hk
    omega
  | cons d ds ih =>
    intro n k hk1 hk hfail hsucc
    match k, hk1 with
    | 1, _ =>
      have h0 : action n = Outcome.success := by simpa using hsucc
      simp [tryDelaysLoop, h0]
    | (k' + 2), _ =>
      have hne : action n ≠ Outcome.success := by
        have := hfail 0 (by omega)
        simpa using this
      have hk' : k' + 1 ≤ ds.length := by
        simpa using Nat.lt_of_lt_of_le (Nat.lt_succ_self _) hk
      have hfail' : ∀ m, m < (k' + 1) - 1 → action (n + 1 + m) ≠ Outcome.success := by
        intro m hm
        have := hfail (m + 1) (by omega)
        have harith : n + (m + 1) = n + 1 + m := by omega
        rw [harith] at this
        exact this
      have hsucc' : action (n + 1 + ((k' + 1) - 1)) = Outcome.success := by
        have harith : n + (k' + 2 - 1) = n + 1 + ((k' + 1) - 1) := by omega
        rw [harith] at hsucc
        exact hsucc
      have hrec := ih (n + 1) (k' + 1) (by omega) hk' hfail' hsucc'
      cases hact : action n with
      | success => exact absurd hact hne
      | failure =>
        simp [tryDelaysLoop, hact, hrec, Nat.add_comm]
        omega
      | thrown =>
        simp [tryDelaysLoop, hact, hrec, Nat.add_comm]
        omega

/-- C1 counterexample: with the four-delay default sequence, an action
that always fails, and a guard that is true before attempts 1 and 2 and
false afterwards, `tryWithDelays` performs 4 action invocations, not the
2 the claim asserts: the guard is only consulted once, before the loop,
so its later turning false does not abort the run. -/
theorem tryWithDelays_guard_not_rechecked :
    (tryWithDelays actionFail delaysC1 (some guardC1)).invocations = 4 ∧
      ¬ (tryWithDelays actionFail delaysC1 (some guardC1)).invocations = 2 := by
  decide

/-- C1 (amended): `tryWithDelays` evaluates the guard exactly once,
before the first attempt; if the guard is false at that point it aborts
immediately with false and zero action invocations; if the guard is true
at that point it is never consulted again, and the run is exactly the
run of the unguarded scheduler. -/
theorem tryWithDelays_guard_once (action : Nat → Outcome) (delays : List Nat)
    (g : Nat → Bool) :
    (tryWithDelays action delays (some g)).guardEvals = 1 ∧
      (g 0 = false →
        tryWithDelays action delays (some g) =
          { result := false, invocations := 0, sleepMs := 0, guardEvals := 1 }) ∧
      (g 0 = true →
        tryWithDelays action delays (some g) =
          { tryWithDelays action delays none with guardEvals := 1 }) := by
  cases hg : g 0 <;> simp [tryWithDelays, hg]

/-- C1 witness: the amended theorem applied at a concrete always-true
guard: one guard evaluation, and the run equals the unguarded run. -/
theorem tryWithDelays_guard_once_w :
    (tryWithDelays actionFail delaysC1 (some (fun _ => true))).guardEvals = 1 ∧
      tryWithDelays actionFail delaysC1 (some (fun _ => true)) =
        { tryWithDelays actionFail delaysC1 none with guardEvals := 1 } :=
  ⟨(tryWithDelays_guard_once actionFail delaysC1 (fun _ => true)).1,
   (tryWithDelays_guard_once actionFail delaysC1 (fun _ => true)).2.2 rfl⟩

/-- C2: for every delay sequence, every guard that stays true, and every
action that fails (falsy or throwing) on its first k-1 invocations and
succeeds on invocation k with k within the sequence, `tryWithDelays`
returns true after exactly k invocations, having slept exactly the sum of
the first k delays (each attempt is preceded by its delay's sleep). -/
theorem tryWithDelays_succeeds_at_k (action : Nat → Outcome) (delays : List Nat)
    (g : Nat → Bool) (k : Nat) (hk1 : 1 ≤ k) (hk : k ≤ delays.length)
    (hguard : ∀ n, g n = true)
    (hfail : ∀ m, m < k - 1 → action m ≠ Outcome.success)
    (hsucc : action (k - 1) = Outcome.success) :
    tryWithDelays action delays (some g) =
      { result := true, invocations := k, sleepMs := (delays.take k).sum,
        guardEvals := 1 } := by
  have hloop := tryDelaysLoop_succeeds action delays 0 k hk1 hk
    (by intro m hm; simpa using hfail m hm) (by simpa using hsucc)
  simp [tryWithDelays, hguard 0, hloop]

/-- C2 witness: delays [10, 20, 30], action failing on attempt 1 and
succeeding on attempt 2, always-true guard: true after exactly 2
invocations with 30 ms slept. -/
theorem tryWithDelays_succeeds_at_k_w :
    tryWithDelays (fun n => if n = 1 then Outcome.success else Outcome.failure)
        [10, 20, 30] (some (fun _ => true)) =
      { result := true, invocations := 2, sleepMs := 30, guardEvals := 1 } := by
  have h := tryWithDelays_succeeds_at_k
    (fun n => if n = 1 then Outcome.success else Outcome.failure)
    [10, 20, 30] (fun _ => true) 2 (by decide) (by decide)
    (fun _ => rfl)
    (fun m hm => by
      have hm0 : m = 0 := by omega
      subst hm0
      decide)
    (by decide)
  simpa using h

/-- C3: for every delay sequence, every guard that stays true, and every
action that never succeeds (always falsy or always throwing, in any mix),
`tryWithDelays` returns false after exactly one invocation per delay,
sleeping the whole sequence; a thrown attempt is caught inside the loop
(the `thrown` branch of the embedding) and never propagates, the loop
simply continuing to the next delay. -/
theorem tryWithDelays_all_fail (action : Nat → Outcome) (delays : List Nat)
    (g : Nat → Bool) (hguard : ∀ n, g n = true)
    (hfail : ∀ m, action m ≠ Outcome.success) :
    tryWithDelays action delays (some g) =
      { result := false, invocations := delays.length, sleepMs := delays.sum,
        guardEvals := 1 } := by
  simp [tryWithDelays, hguard 0, tryDelaysLoop_all_fail action hfail delays 0]

/-- C3 witness: an action that always throws, delays [5, 7]: false after
exactly 2 invocations and 12 ms slept, no exception escaping. -/
theorem tryWithDelays_all_fail_w :
    tryWithDelays (fun _ => Outcome.thrown) [5, 7] (some (fun _ => true)) =
      { result := false, invocations := 2, sleepMs := 12, guardEvals := 1 } := by
  have h := tryWithDelays_all_fail (fun _ => Outcome.thrown) [5, 7]
    (fun _ => true) (fun _ => rfl) (fun _ h => Outcome.noConfusion h)
  simpa using h

/-- C8: for every action and every guard argument (absent, true or
false), `tryWithDelays` on the empty delay sequence returns false and
never invokes the action. -/
theorem tryWithDelays_empty (action : Nat → Outcome)
    (validationFn : Option (Nat → Bool)) :
    (tryWithDelays action [] validationFn).result = false ∧
      (tryWithDelays action [] validationFn).invocations = 0 := by
  match validationFn with
  | none => simp [tryWithDelays, tryDelaysLoop]
  | some g => cases hg : g 0 <;> simp [tryWithDelays, tryDelaysLoop, hg]

/-- Browser-page environment visible to logic.js: the current location,
the document ready state, the localStorage contents (an association list,
most recent write first, looked up by first match — this models
overwriting `setItem`), a switch modelling localStorage throwing, the
types of the performance navigation entries, and a switch modelling the
navigation-timing query throwing. -/
structure Env where
  href : String
  hostname : String
  readyStateComplete : Bool
  storage : List (String × String)
  storageFails : Bool
  navEntries : List String
  navFails : Bool
deriving DecidableEq, Repr

/-- Embedding of `getStorageItem(key, defaultValue = false)` (logic.js
lines 21-29): read `localStorage.getItem(key)`; a missing key or a thrown
exception yields the default; a stored string decodes to true exactly
when it equals the string true. -/
def getStorageItem (env : Env) (key : String) (defaultValue : Bool) : Bool :=
  if env.storageFails then defaultValue
  else
    match env.storage.lookup key with
    | none => defaultValue
    | some v => v == "true"

/-- Embedding of `setStorageItem(key, value)` (logic.js lines 30-38):
serialize the boolean as the string true or the string false and store
it, returning true; a thrown exception is caught, leaves the store
unchanged, and returns false. -/
def setStorageItem (env : Env) (key : String) (value : Bool) : Env × Bool :=
  if env.storageFails then (env, false)
  else
    ({ env with storage := (key, if value then "true" else "false") :: env.storage },
      true)

/-- Embedding of `isPageRefreshed()` (logic.js lines 39-46): the page
counts as hard-reloaded when there is at least one performance navigation
entry and the first one has type reload; a thrown exception yields
false. -/
def isPageRefreshed (env : Env) : Bool :=
  if env.navFails then false
  else
    match env.navEntries with
    | [] => false
    | t :: _ => t == "reload"

/-- A URL matcher of a platform config: a literal substring, or a regular
expression modelled by its test function on the whole URL. -/
inductive UrlPattern where
  | str : String → UrlPattern
  | regex : (String → Bool) → UrlPattern

/-- Containment of one list inside another: the needle is a prefix of
some suffix of the haystack. -/
def listContains (needle : List Char) : List Char → Bool
  | [] => needle.isEmpty
  | a :: as => needle.isPrefixOf (a :: as) || listContains needle as

/-- Substring containment, the semantics of the JS
`url.includes(pattern)`. -/
def strIncludes (hay sub : String) : Bool :=
  listContains sub.toList hay.toList

/-- Suffix test on strings, used to denote anchored-at-end regular
expressions. -/
def strEndsWith (s suffix : String) : Bool :=
  suffix.toList.isSuffixOf s.toList

/-- One matcher applied to a URL: a string matcher matches by substring
containment, a pattern matcher by its regular-expression test. -/
def patternMatches (url : String) (p : UrlPattern) : Bool :=
  match p with
  | UrlPattern.str s => strIncludes url s
  | UrlPattern.regex t => t url

/-- Embedding of `AIPlatformHandler.isValidPage` (logic.js lines 74-84)
as a function of the pattern list and the URL: true when some matcher
matches. -/
def isValidPageOn (patterns : List UrlPattern) (url : String) : Bool :=
  patterns.any (patternMatches url)

/-- The platform configuration of `AIPlatformHandler.constructor`
(logic.js lines 64-73). -/
structure Config where
  hostname : String
  storageKey : String
  urlPatterns : List UrlPattern
  defaultDelays : List Nat

/-- A platform handler: its configuration plus its platform-specific
`enableFeatures` action, abstract here exactly as in the base class
(every subclass supplies its own), modelled by the outcome of each
invocation. -/
structure Handler where
  cfg : Config
  enableFeatures : Nat → Outcome

/-- Method `isValidPage()` of a handler, reading the current URL from the
environment. -/
def Handler.isValidPage (hd : Handler) (env : Env) : Bool :=
  isValidPageOn hd.cfg.urlPatterns env.href

/-- Embedding of `isCurrentWebsite()` (logic.js lines 85-90): the
hostname contains the configured hostname substring and the URL passes
the page matcher. -/
def Handler.isCurrentWebsite (hd : Handler) (env : Env) : Bool :=
  strIncludes env.hostname hd.cfg.hostname && hd.isValidPage env

/-- Embedding of `setFeatureEnabled(enabled)` (logic.js lines 98-100). -/
def Handler.setFeatureEnabled (hd : Handler) (env : Env) (enabled : Bool) :
    Env × Bool :=
  setStorageItem env hd.cfg.storageKey enabled

/-- Embedding of `getFeatureEnabled()` (logic.js lines 91-97): on a hard
reload, first write false to the store, then return false; otherwise read
the persisted flag with default false. -/
def Handler.getFeatureEnabled (hd : Handler) (env : Env) : Env × Bool :=
  if isPageRefreshed env then
    ((hd.setFeatureEnabled env false).1, false)
  else
    (env, getStorageItem env hd.cfg.storageKey false)

/-- C4: on a hard reload, `getFeatureEnabled` returns false regardless of
the stored value and writes false to the store (when storage works); on a
non-reload load it leaves the environment unchanged and returns the
persisted boolean, false when no value is stored. -/
theorem getFlag_spec (hd : Handler) (env : Env) :
    (isPageRefreshed env = true →
      (hd.getFeatureEnabled env).2 = false ∧
        (env.storageFails = false →
          (hd.getFeatureEnabled env).1.storage.lookup hd.cfg.storageKey =
            some "false")) ∧
    (isPageRefreshed env = false →
      (hd.getFeatureEnabled env).1 = env ∧
        (env.storageFails = false →
          (∀ b : Bool,
            env.storage.lookup hd.cfg.storageKey =
              some (if b then "true" else "false") →
            (hd.getFeatureEnabled env).2 = b) ∧
          (env.storage.lookup hd.cfg.storageKey = none →
            (hd.getFeatureEnabled env).2 = false))) := by
  constructor
  · intro href
    refine ⟨by simp [Handler.getFeatureEnabled, href], ?_⟩
    intro hsf
    simp [Handler.getFeatureEnabled, href, Handler.setFeatureEnabled,
      setStorageItem, hsf, List.lookup]
  · intro href
    refine ⟨by simp [Handler.getFeatureEnabled, href], ?_⟩
    intro hsf
    constructor
    · intro b hb
      cases b <;>
        simp [Handler.getFeatureEnabled, href, getStorageItem, hsf, hb]
    · intro hb
      simp [Handler.getFeatureEnabled, href, getStorageItem, hsf, hb]

/-- A concrete handler used by witnesses: the grok-like config with a
never-succeeding action. -/
def hdW : Handler :=
  { cfg :=
      { hostname := "grok.com", storageKey := "grok-thinking-enabled",
        urlPatterns := [UrlPattern.str "grok.com"],
        defaultDelays := [1000, 2000, 3000, 5000] },
    enableFeatures := actionFail }

/-- A concrete environment used by witnesses: a reloaded grok page with a
previously stored true flag and working storage. -/
def envReloadW : Env :=
  { href := "https://grok.com/new", hostname := "grok.com",
    readyStateComplete := true,
    storage := [("grok-thinking-enabled", "true")], storageFails := false,
    navEntries := ["reload"], navFails := false }

/-- C4 witness: on the concrete reloaded environment with true stored,
the flag read returns false and the store now holds false. -/
theorem getFlag_spec_w :
    (hdW.getFeatureEnabled envReloadW).2 = false ∧
      (hdW.getFeatureEnabled envReloadW).1.storage.lookup
        hdW.cfg.storageKey = some "false" :=
  ⟨((getFlag_spec hdW envReloadW).1 (by decide)).1,
   ((getFlag_spec hdW envReloadW).1 (by decide)).2 (by decide)⟩

/-- C7: `setStorageItem` returns true exactly when the write succeeded
(storage did not throw); on success the serialized string true/false is
stored under the key; a thrown write is caught, leaves the store
unchanged, and yields false instead of propagating; and
`setFeatureEnabled` is exactly this write at the config's storage key. -/
theorem setFlag_spec (env : Env) (key : String) (value : Bool) :
    ((setStorageItem env key value).2 = true ↔ env.storageFails = false) ∧
    (env.storageFails = false →
      (setStorageItem env key value).1.storage.lookup key =
        some (if value then "true" else "false")) ∧
    (env.storageFails = true →
      (setStorageItem env key value).1 = env ∧
        (setStorageItem env key value).2 = false) ∧
    (∀ hd : Handler, hd.setFeatureEnabled env value =
      setStorageItem env hd.cfg.storageKey value) := by
  refine ⟨?_, ?_, ?_, fun hd => rfl⟩
  · cases hsf : env.storageFails <;> simp [setStorageItem, hsf]
  · intro hsf
    simp [setStorageItem, hsf, List.lookup]
  · intro hsf
    simp [setStorageItem, hsf]

/-- C7 witness: on the concrete working-storage environment the write of
true succeeds and stores the string true. -/
theorem setFlag_spec_w :
    ((setStorageItem envReloadW "k" true).2 = true ↔
      envReloadW.storageFails = false) ∧
      (setStorageItem envReloadW "k" true).1.storage.lookup "k" =
        some "true" :=
  ⟨(setFlag_spec envReloadW "k" true).1,
   (setFlag_spec envReloadW "k" true).2.1 (by decide)⟩

/-- C10: a successful write of b under a key is read back as exactly b
for any default; the adapter serializes booleans as the exact strings
true and false, and the reader decodes a stored string as true exactly
when it equals the string true. -/
theorem storage_roundtrip (env : Env) (key : String) (b d : Bool)
    (hw : (setStorageItem env key b).2 = true) :
    getStorageItem (setStorageItem env key b).1 key d = b ∧
      (setStorageItem env key b).1.storage.lookup key =
        some (if b then "true" else "false") ∧
      (∀ v, env.storage.lookup key = some v →
        getStorageItem env key d = (v == "true")) := by
  have hsf : env.storageFails = false := by
    cases hsf : env.storageFails
    · rfl
    · simp [setStorageItem, hsf] at hw
  refine ⟨?_, ?_, ?_⟩
  · cases b <;> simp [setStorageItem, getStorageItem, hsf, List.lookup]
  · simp [setStorageItem, hsf, List.lookup]
  · intro v hv
    simp [getStorageItem, hsf, hv]

/-- C10 witness: writing false under a key then reading it with default
true yields false, and the stored string is the string false. -/
theorem storage_roundtrip_w :
    getStorageItem (setStorageItem envReloadW "k" false).1 "k" true = false ∧
      (setStorageItem envReloadW "k" false).1.storage.lookup "k" =
        some "false" :=
  ⟨(storage_roundtrip envReloadW "k" false true (by decide)).1,
   (storage_roundtrip envReloadW "k" false true (by decide)).2.1⟩

/-- The two matchers of the grok example: the literal substring
grok.com/new, and the pattern anchored at the end of the URL that
matches grok.com optionally followed by a slash (the denotation of the
test of that regular expression is: the URL ends with grok.com or with
grok.com followed by a slash). -/
def grokClaimPatterns : List UrlPattern :=
  [UrlPattern.str "grok.com/new",
   UrlPattern.regex (fun u => strEndsWith u "grok.com" || strEndsWith u "grok.com/")]

/-- C5: the page matcher accepts a URL exactly when at least one matcher
matches it, string matchers by substring containment and pattern
matchers by their regular-expression test; on the grok example matchers,
the URLs https grok.com slash and https grok.com slash new are accepted
and https grok.com slash other slash path is rejected. -/
theorem isValidPage_spec :
    (∀ (ps : List UrlPattern) (url : String),
      isValidPageOn ps url = true ↔ ∃ p, p ∈ ps ∧ patternMatches url p = true) ∧
    isValidPageOn grokClaimPatterns "https://grok.com/" = true ∧
    isValidPageOn grokClaimPatterns "https://grok.com/new" = true ∧
    isValidPageOn grokClaimPatterns "https://grok.com/other/path" = false := by
  refine ⟨?_, by decide, by decide, by decide⟩
  intro ps url
  simp [isValidPageOn, List.any_eq_true]

/-- Result of `initialize()` (logic.js lines 101-112): skipped when the
page is not the handler's website (the JS returns false); otherwise the
retry run is started immediately when the document is already
load-complete, and otherwise deferred to the one-time window load
callback.  In both of the latter cases the recorded `RunResult` is the
run the scheduler performs. -/
inductive InitOutcome where
  | skipped
  | ran (r : RunResult)
  | deferredRun (r : RunResult)
deriving DecidableEq, Repr

/-- Embedding of `runWithDelays()` (logic.js lines 113-119): invoke the
retry scheduler with the handler's `enableFeatures` action, its
configured delay sequence, and a guard equal to `isValidPage`. -/
def Handler.runWithDelays (hd : Handler) (env : Env) : RunResult :=
  tryWithDelays hd.enableFeatures hd.cfg.defaultDelays
    (some (fun _ => hd.isValidPage env))

/-- Embedding of `initialize()` (logic.js lines 101-112): return early
when not the current website; otherwise force the feature flag to false,
then start the retry run now or on load completion depending on the
document ready state. -/
def Handler.initializeOn (hd : Handler) (env : Env) : Env × InitOutcome :=
  if hd.isCurrentWebsite env then
    let env2 := (hd.setFeatureEnabled env false).1
    if env2.readyStateComplete then
      (env2, InitOutcome.ran (hd.runWithDelays env2))
    else
      (env2, InitOutcome.deferredRun (hd.runWithDelays env2))
  else
    (env, InitOutcome.skipped)

/-- C6: under the precondition that `isCurrentWebsite()` holds,
`initialize()` first forces the feature flag to false (the resulting
environment is the flag-write environment, and the store holds false
under the config key when storage works); it starts the retry run
immediately exactly when the document is load-complete and otherwise
defers it to the one-time load callback; and the scheduler is invoked
with the handler's `enableFeatures` action, its configured delay
sequence, and a guard equal to `isValidPage`. -/
theorem initialize_spec (hd : Handler) (env : Env)
    (hcur : hd.isCurrentWebsite env = true) :
    (hd.initializeOn env).1 = (hd.setFeatureEnabled env false).1 ∧
    (env.storageFails = false →
      (hd.initializeOn env).1.storage.lookup hd.cfg.storageKey = some "false") ∧
    (hd.initializeOn env).2 =
      (if env.readyStateComplete then
        InitOutcome.ran (hd.runWithDelays (hd.initializeOn env).1)
      else
        InitOutcome.deferredRun (hd.runWithDelays (hd.initializeOn env).1)) ∧
    hd.runWithDelays (hd.initializeOn env).1 =
      tryWithDelays hd.enableFeatures hd.cfg.defaultDelays
        (some (fun _ => hd.isValidPage env)) := by
  cases hsf : env.storageFails <;>
    cases hrs : env.readyStateComplete <;>
      refine ⟨?_, ?_, ?_, ?_⟩ <;>
        simp [Handler.initializeOn, hcur, Handler.setFeatureEnabled,
          setStorageItem, hsf, hrs, Handler.runWithDelays,
          Handler.isValidPage, List.lookup]

/-- An environment used by the C6 witness: a grok page whose document is
already load-complete, with working storage. -/
def envLoadedW : Env :=
  { href := "https://grok.com/new", hostname := "grok.com",
    readyStateComplete := true, storage := [], storageFails := false,
    navEntries := [], navFails := false }

/-- C6 witness: on the concrete load-complete grok environment the
initialization writes false under the flag key and starts the retry run
immediately with the handler's action, delays, and page guard. -/
theorem initialize_spec_w :
    (hdW.initializeOn envLoadedW).1.storage.lookup hdW.cfg.storageKey =
        some "false" ∧
      (hdW.initializeOn envLoadedW).2 =
        (if envLoadedW.readyStateComplete then
          InitOutcome.ran (hdW.runWithDelays (hdW.initializeOn envLoadedW).1)
        else
          InitOutcome.deferredRun
            (hdW.runWithDelays (hdW.initializeOn envLoadedW).1)) ∧
      hdW.runWithDelays (hdW.initializeOn envLoadedW).1 =
        tryWithDelays hdW.enableFeatures hdW.cfg.defaultDelays
          (some (fun _ => hdW.isValidPage envLoadedW)) :=
  ⟨(initialize_spec hdW envLoadedW (by decide)).2.1 (by decide),
   (initialize_spec hdW envLoadedW (by decide)).2.2.1,
   (initialize_spec hdW envLoadedW (by decide)).2.2.2⟩

/-- Strip a leading www. from a hostname, the semantics of the JS
replace of the anchored www-dot pattern by the empty string
(chrome/background.js, `getHandlerForCurrentPage`). -/
def dropWww (s : String) : String :=
  if ("www.".toList).isPrefixOf s.toList then String.mk (s.toList.drop 4)
  else s

/-- Embedding of `getHandlerForCurrentPage()` (chrome/background.js):
try an exact hostname match against the registered domains, then the
hostname with a leading www. stripped, then a domain-suffix match;
handlers are identified by their registration index. -/
def getHandlerForCurrentPage (hostname : String) (domains : List String) :
    Option Nat :=
  match domains.findIdx? (fun d => d == hostname) with
  | some i => some i
  | none =>
    match domains.findIdx? (fun d => d == dropWww hostname) with
    | some i => some i
    | none =>
      domains.findIdx? (fun d => strEndsWith hostname ("." ++ d) || hostname == d)

/-- State of the URL-change watcher and handler registry of
chrome/background.js: the last-observed URL, the currently active
handler (by registration index), the registered domains in order, and
each registered handler's initialized flag. -/
structure WatchState where
  currentUrl : String
  currentHandler : Option Nat
  domains : List String
  flags : List Bool
deriving DecidableEq, Repr

/-- Embedding of `handleUrlChange()` (chrome/background.js): when the
URL did not change, do nothing; otherwise record the new URL, look up
the handler for the new page, and when one is found that differs from
the currently active one, run `cleanup()` on the previous handler (its
initialized flag becomes false), make the new handler current, and run
`init()` on it (its initialized flag becomes true). -/
def handleUrlChange (st : WatchState) (newUrl newHostname : String) :
    WatchState :=
  if newUrl == st.currentUrl then st
  else
    match getHandlerForCurrentPage newHostname st.domains with
    | none => { st with currentUrl := newUrl }
    | some i =>
      if st.currentHandler == some i then { st with currentUrl := newUrl }
      else
        match st.currentHandler with
        | some j =>
          { st with
            currentUrl := newUrl
            currentHandler := some i
            flags := (st.flags.set j false).set i true }
        | none =>
          { st with
            currentUrl := newUrl
            currentHandler := some i
            flags := st.flags.set i true }

/-- Branch lemma: an unchanged URL leaves the watcher state unchanged. -/
theorem handleUrlChange_same_url (st : WatchState) (newUrl newHostname : String)
    (h : (newUrl == st.currentUrl) = true) :
    handleUrlChange st newUrl newHostname = st := by
  simp [handleUrlChange, h]

/-- Branch lemma: a changed URL with no matching handler only records the
new URL. -/
theorem handleUrlChange_no_handler (st : WatchState)
    (newUrl newHostname : String)
    (hurl : (newUrl == st.currentUrl) = false)
    (hget : getHandlerForCurrentPage newHostname st.domains = none) :
    handleUrlChange st newUrl newHostname = { st with currentUrl := newUrl } := by
  simp [handleUrlChange, hurl, hget]

/-- Branch lemma: a changed URL whose handler is already the active one
only records the new URL. -/
theorem handleUrlChange_same_handler (st : WatchState)
    (newUrl newHostname : String) (i : Nat)
    (hurl : (newUrl == st.currentUrl) = false)
    (hget : getHandlerForCurrentPage newHostname st.domains = some i)
    (hch : st.currentHandler = some i) :
    handleUrlChange st newUrl newHostname = { st with currentUrl := newUrl } := by
  simp [handleUrlChange, hurl, hget, hch]

/-- Branch lemma: a changed URL whose handler differs from the active
one cleans up the active handler and initializes the new one. -/
theorem handleUrlChange_switch_from (st : WatchState)
    (newUrl newHostname : String) (i j : Nat)
    (hurl : (newUrl == st.currentUrl) = false)
    (hget : getHandlerForCurrentPage newHostname st.domains = some i)
    (hch : st.currentHandler = some j) (hij : i ≠ j) :
    handleUrlChange st newUrl newHostname =
      { st with
        currentUrl := newUrl
        currentHandler := some i
        flags := (st.flags.set j false).set i true } := by
  have hji : j ≠ i := fun h => hij h.symm
  simp [handleUrlChange, hurl, hget, hch, hji]

/-- Branch lemma: a changed URL with a matching handler and no active
handler initializes the new one. -/
theorem handleUrlChange_switch_fresh (st : WatchState)
    (newUrl newHostname : String) (i : Nat)
    (hurl : (newUrl == st.currentUrl) = false)
    (hget : getHandlerForCurrentPage newHostname st.domains = some i)
    (hch : st.currentHandler = none) :
    handleUrlChange st newUrl newHostname =
      { st with
        currentUrl := newUrl
        currentHandler := some i
        flags := st.flags.set i true } := by
  simp [handleUrlChange, hurl, hget, hch]

/-- C9: the URL-change handler preserves the invariant that every
handler whose initialized flag is set is the currently active one (so at
most one handler is active after each navigation event, the invariant
holding at script load where no flag is set); and on a URL change whose
new page matches a handler different from the active one, the previous
handler is deactivated (flag reset to false), the new handler becomes
current, and it is initialized (flag set to true). -/
theorem handleUrlChange_spec (st : WatchState) (newUrl newHostname : String)
    (hinv : ∀ k, st.flags[k]? = some true → st.currentHandler = some k) :
    (∀ k, (handleUrlChange st newUrl newHostname).flags[k]? = some true →
      (handleUrlChange st newUrl newHostname).currentHandler = some k) ∧
    (∀ i j, (newUrl == st.currentUrl) = false →
      getHandlerForCurrentPage newHostname st.domains = some i →
      st.currentHandler = some j → i ≠ j →
      i < st.flags.length → j < st.flags.length →
      (handleUrlChange st newUrl newHostname).currentHandler = some i ∧
        (handleUrlChange st newUrl newHostname).flags[i]? = some true ∧
        (handleUrlChange st newUrl newHostname).flags[j]? = some false) := by
  constructor
  · intro k hk
    by_cases hurl : (newUrl == st.currentUrl) = true
    · rw [handleUrlChange_same_url st newUrl newHostname hurl] at hk ⊢
      exact hinv k hk
    · rw [Bool.not_eq_true] at hurl
      cases hget : getHandlerForCurrentPage newHostname st.domains with
      | none =>
        rw [handleUrlChange_no_handler st newUrl newHostname hurl hget] at hk ⊢
        exact hinv k hk
      | some i =>
        cases hcur : st.currentHandler with
        | none =>
          rw [handleUrlChange_switch_fresh st newUrl newHostname i hurl hget
            hcur] at hk ⊢
          by_cases hki : k = i
          · exact congrArg some hki.symm
          · rw [List.getElem?_set_ne (fun h => hki h.symm)] at hk
            exact absurd (hinv k hk) (by simp [hcur])
        | some j =>
          by_cases hij : i = j
          · subst hij
            rw [handleUrlChange_same_handler st newUrl newHostname i hurl
              hget hcur] at hk ⊢
            exact hinv k hk
          · rw [handleUrlChange_switch_from st newUrl newHostname i j hurl
              hget hcur hij] at hk ⊢
            by_cases hki : k = i
            · exact congrArg some hki.symm
            · rw [List.getElem?_set_ne (fun h => hki h.symm)] at hk
              by_cases hkj : k = j
              · subst hkj
                by_cases hjlen : k < st.flags.length
                · rw [List.getElem?_set_self hjlen] at hk
                  exact absurd hk (by simp)
                · rw [List.getElem?_eq_none
                    (by simpa using Nat.le_of_not_lt hjlen)] at hk
                  exact absurd hk (by simp)
              · rw [List.getElem?_set_ne (fun h => hkj h.symm)] at hk
                have hc := hinv k hk
                rw [hcur] at hc
                exact absurd (Option.some.inj hc) (fun h => hkj h.symm)
  · intro i j hurl hget hcur hij hilen hjlen
    rw [handleUrlChange_switch_from st newUrl newHostname i j hurl hget
      hcur hij]
    refine ⟨rfl, ?_, ?_⟩
    · exact List.getElem?_set_self (by simpa using hilen)
    · rw [List.getElem?_set_ne hij]
      exact List.getElem?_set_self hjlen

/-- The registry state used by the C9 witness: two registered handlers,
the first one active, just before navigating from the first domain to
the second. -/
def stW : WatchState :=
  { currentUrl := "https://claude.ai/", currentHandler := some 0,
    domains := ["claude.ai", "grok.com"], flags := [true, false] }

/-- C9 witness: navigating the concrete two-handler registry from the
first domain to the second deactivates handler 0, activates handler 1,
and makes handler 1 current. -/
theorem handleUrlChange_spec_w :
    (handleUrlChange stW "https://grok.com/" "grok.com").currentHandler =
        some 1 ∧
      (handleUrlChange stW "https://grok.com/" "grok.com").flags[1]? =
        some true ∧
      (handleUrlChange stW "https://grok.com/" "grok.com").flags[0]? =
        some false := by
  have hinv : ∀ k, stW.flags[k]? = some true → stW.currentHandler = some k := by
    intro k hk
    match k with
    | 0 => rfl
    | 1 => simp [stW] at hk
    | n + 2 => simp [stW] at hk
  exact (handleUrlChange_spec stW "https://grok.com/" "grok.com" hinv).2 1 0
    (by decide) (by decide) rfl (by decide) (by decide) (by decide)

end AIWebConfig
